import Mathlib

/-!
Verification of the Content-Hub-API core against its specification.

The repository is a Django/DRF content backend.  The definitions below are a
shallow embedding of the core logic of `src/core/models.py`,
`src/apps/content/models.py`, `src/apps/content/serializers.py` and
`src/apps/content/signals.py`: rows are records, querysets are lists, the
database is a list of rows, machine strings are `String` (Python `str` is a
sequence of code points, as is `String.data`), and fallible serializer
validation returns `Except`.  Character-level string operations are modelled
for ASCII input: on ASCII, Python's `str.lower` agrees with `Char.toLower`,
`\w` is `[A-Za-z0-9_]`, `\s` is `[ \t\n\r\x0b\x0c]`, and the NFKD/ascii-encode
step of `django.utils.text.slugify` is the identity.
-/

/-! ### Characters: ASCII models of the Python character classes -/

/-- ASCII alphanumeric (`[A-Za-z0-9]`), expressed over code points. -/
def isAsciiAlnum (c : Char) : Bool :=
  (65 ≤ c.toNat && c.toNat ≤ 90) || (97 ≤ c.toNat && c.toNat ≤ 122) ||
    (48 ≤ c.toNat && c.toNat ≤ 57)

/-- Python regex `\w` restricted to ASCII: `[A-Za-z0-9_]`. -/
def isPyWord (c : Char) : Bool :=
  isAsciiAlnum c || c.toNat = 95

/-- Python regex `\s` restricted to ASCII: space, tab, newline, carriage
return, vertical tab, form feed. -/
def isPySpace (c : Char) : Bool :=
  c.toNat = 32 || c.toNat = 9 || c.toNat = 10 || c.toNat = 13 ||
    c.toNat = 11 || c.toNat = 12

/-- The character class `[-\s]` collapsed to `-` by `slugify`. -/
def isSlugSep (c : Char) : Bool :=
  isPySpace c || c.toNat = 45

/-- A character stripped from the ends by `slugify`'s `.strip("-_")`. -/
def isStripChar (c : Char) : Bool :=
  c.toNat = 45 || c.toNat = 95

/-! ### `django.utils.text.slugify` (ASCII model) -/

/-- Replace every maximal run of characters satisfying `sep` by a single
hyphen (the effect of `re.sub(r"[-\s]+", "-", value)`).  The boolean records
whether the previous character belonged to a run. -/
def collapseRunsBy (sep : Char → Bool) : Bool → List Char → List Char
  | _, [] => []
  | inRun, c :: cs =>
    if sep c then
      if inRun then collapseRunsBy sep true cs
      else '-' :: collapseRunsBy sep true cs
    else c :: collapseRunsBy sep false cs

/-- Python `str.strip(chars)`: drop characters of the set from both ends. -/
def stripEndsBy (p : Char → Bool) (cs : List Char) : List Char :=
  ((cs.dropWhile p).reverse.dropWhile p).reverse

/-- `django.utils.text.slugify` on a list of code points, modelled for ASCII
input: drop non-ASCII (the `encode("ascii", "ignore")` step), lowercase,
remove characters matching `[^\w\s-]`, collapse `[-\s]+` runs to single
hyphens, strip `-` and `_` from both ends. -/
def slugifyChars (cs : List Char) : List Char :=
  let ascii := cs.filter (fun c => c.toNat < 128)
  let lowered := ascii.map Char.toLower
  let kept := lowered.filter (fun c => isPyWord c || isPySpace c || c.toNat = 45)
  stripEndsBy isStripChar (collapseRunsBy isSlugSep false kept)

/-- `django.utils.text.slugify` as used by `Article._generate_unique_slug`. -/
def slugify (s : String) : String :=
  (slugifyChars s.data).asString

/-- The normalisation step exactly as the specification words it: lowercase,
runs of non-alphanumeric characters collapsed to single hyphens, leading and
trailing hyphens trimmed.  Stated only to compare with `slugify`, which the
source actually uses. -/
def specNormalize (s : String) : String :=
  (stripEndsBy (fun c => c.toNat = 45)
    (collapseRunsBy (fun c => !isAsciiAlnum c) false (s.data.map Char.toLower))).asString

/-! ### Slug probing (`Article._generate_unique_slug`) -/

/-- The candidate tried at step `k` of the probe loop: the base slug itself
first, then `base-1`, `base-2`, ... (`f"{base_slug}-{counter}"`). -/
def slugCandidate (base : String) (k : Nat) : String :=
  if k = 0 then base else base ++ "-" ++ Nat.repr k

/-- The `while Article.objects.filter(slug=slug).exists()` loop: try
candidates in order until one is not among the `used` slugs.  The loop of the
source is unbounded; `probeSlug` carries fuel, and
`generateUniqueSlug` supplies fuel `used.length + 1`, which is enough because
the candidates are pairwise distinct (proved below). -/
def probeSlug (base : String) (used : List String) : Nat → Nat → String
  | 0, c => slugCandidate base c
  | fuel + 1, c =>
    if slugCandidate base c ∈ used then probeSlug base used fuel (c + 1)
    else slugCandidate base c

/-- `Article._generate_unique_slug`: `used` is the list of slugs of all
existing articles (`Article.objects`, the default manager, which includes
soft-deleted rows). -/
def generateUniqueSlug (title : String) (used : List String) : String :=
  probeSlug (slugify title) used (used.length + 1) 0

/-! ### Article rows and `Article.save` -/

/-- A stored `Article` row.  Timestamps and foreign keys are natural
numbers. -/
structure ArticleRow where
  pk : Nat
  title : String
  slug : String
  content : String
  excerpt : String
  author : Nat
  is_published : Bool
  views_count : Nat
  tags : String
  is_deleted : Bool
  deleted_at : Option Nat
  created_at : Nat
  updated_at : Nat
deriving Repr, DecidableEq

/-- The auto-excerpt expression of `Article.save`:
`self.content[:200] + '...' if len(self.content) > 200 else self.content`. -/
def autoExcerpt (content : String) : String :=
  if content.length > 200 then (content.data.take 200).asString ++ "..."
  else content

/-- `Article.save`: assign a slug when the instance has none
(`if not self.slug`), then derive the excerpt when absent and content is
non-empty (`if not self.excerpt and self.content`).  `used` is the list of
slugs of the already stored articles. -/
def articleSave (a : ArticleRow) (used : List String) : ArticleRow :=
  let withSlug :=
    if a.slug = "" then { a with slug := generateUniqueSlug a.title used } else a
  if withSlug.excerpt = "" ∧ withSlug.content ≠ "" then
    { withSlug with excerpt := autoExcerpt withSlug.content }
  else withSlug

/-! ### Visibility managers -/

/-- `PublishedArticleManager.get_queryset`:
`filter(is_published=True, is_deleted=False)`. -/
def publishedView (db : List ArticleRow) : List ArticleRow :=
  db.filter (fun a => a.is_published && !a.is_deleted)

/-- `ActiveObjectsManager.get_queryset`: `filter(is_deleted=False)`. -/
def activeView (db : List ArticleRow) : List ArticleRow :=
  db.filter (fun a => !a.is_deleted)

/-! ### Soft delete (`core/models.py`) -/

/-- State of an entity carrying the `TimeStampedModel` and `SoftDeleteModel`
fields; `payload` stands for all remaining fields. -/
structure SoftDeleteState (α : Type) where
  payload : α
  is_deleted : Bool
  deleted_at : Option Nat
  created_at : Nat
  updated_at : Nat
deriving Repr, DecidableEq

/-- `Model.save(update_fields=[...])`: only the listed fields are written.
The `auto_now` field `updated_at` is refreshed only when it is itself among
`update_fields` (Django passes only the listed fields through
`Field.pre_save`). -/
def saveUpdateFields (s : SoftDeleteState α) (fields : List String) (now : Nat) :
    SoftDeleteState α :=
  if "updated_at" ∈ fields then { s with updated_at := now } else s

/-- `SoftDeleteModel.soft_delete`: set the flag and timestamp, then
`save(update_fields=['is_deleted', 'deleted_at'])`. -/
def soft_delete (now : Nat) (s : SoftDeleteState α) : SoftDeleteState α :=
  saveUpdateFields { s with is_deleted := true, deleted_at := some now }
    ["is_deleted", "deleted_at"] now

/-- `SoftDeleteModel.restore`: clear the flag and timestamp, then
`save(update_fields=['is_deleted', 'deleted_at'])`. -/
def restore (now : Nat) (s : SoftDeleteState α) : SoftDeleteState α :=
  saveUpdateFields { s with is_deleted := false, deleted_at := none }
    ["is_deleted", "deleted_at"] now

/-! ### View counter (`Article.increment_views`) -/

/-- Look a row up by primary key. -/
def findRow (db : List ArticleRow) (pk : Nat) : Option ArticleRow :=
  db.find? (fun a => a.pk = pk)

/-- The stored `views_count` of the row with primary key `pk`. -/
def storedViews (db : List ArticleRow) (pk : Nat) : Option Nat :=
  (findRow db pk).map (fun a => a.views_count)

/-- `Article.objects.filter(pk=...).update(views_count=F('views_count') + 1)`:
a single in-place increment executed atomically by the store. -/
def atomicIncrementViews (pk : Nat) (db : List ArticleRow) : List ArticleRow :=
  db.map (fun a => if a.pk = pk then { a with views_count := a.views_count + 1 } else a)

/-- `Article.increment_views`: the atomic update followed by
`refresh_from_db(fields=['views_count'])`.  Returns `none` when the row is
gone (where `refresh_from_db` would raise `DoesNotExist`). -/
def increment_views (a : ArticleRow) (db : List ArticleRow) :
    Option (ArticleRow × List ArticleRow) :=
  let db2 := atomicIncrementViews a.pk db
  (findRow db2 a.pk).map (fun r => ({ a with views_count := r.views_count }, db2))

/-- A schedule of interleaved atomic increments coming from independent
requests: each list entry is the primary key targeted by one request's
single atomic store step. -/
def runIncrements (db : List ArticleRow) (sched : List Nat) : List ArticleRow :=
  sched.foldl (fun d pk => atomicIncrementViews pk d) db

/-! ### Comments -/

/-- A stored `Comment` row. -/
structure CommentRow where
  pk : Nat
  article : Nat
  author : Nat
  content : String
  parent : Option Nat
  is_deleted : Bool
  deleted_at : Option Nat
  created_at : Nat
  updated_at : Nat
deriving Repr, DecidableEq

/-- `CommentSerializer.get_replies`: on a reply (`obj.is_reply`, that is
`parent is not None`) return `[]`; otherwise the first five active children
(`obj.replies.filter(is_deleted=False)[:5]`).  `db` is the comment table in
the related queryset's order. -/
def get_replies (c : CommentRow) (db : List CommentRow) : List CommentRow :=
  if c.parent.isSome then []
  else (db.filter (fun r => r.parent = some c.pk && !r.is_deleted)).take 5

/-- `CommentSerializer.validate_parent`: with a parent supplied, compare
`str(value.article.id)` against `str(article)` from the payload and reject a
mismatch. -/
def validate_parent (parent : Option CommentRow) (articleId : Nat) :
    Except String (Option CommentRow) :=
  match parent with
  | none => Except.ok none
  | some p =>
    if Nat.repr p.article ≠ Nat.repr articleId then
      Except.error "Parent comment must belong to the same article."
    else Except.ok (some p)

/-- The comment write path: run `validate_parent`; on success append the new
row, on failure write nothing and surface the error. -/
def createComment (db : List CommentRow) (parent : Option CommentRow)
    (articleId : Nat) (row : CommentRow) : Except String (List CommentRow) :=
  match validate_parent parent articleId with
  | Except.error e => Except.error e
  | Except.ok _ => Except.ok (db ++ [row])

/-! ### Title validation (`ArticleCreateUpdateSerializer.validate_title`) -/

/-- Python `str.lower` (ASCII model), used for `title__iexact`. -/
def lowerStr (s : String) : String :=
  (s.data.map Char.toLower).asString

/-- The two errors `validate_title` can raise. -/
inductive TitleError where
  | tooShort
  | duplicate
deriving Repr, DecidableEq

/-- `ArticleCreateUpdateSerializer.validate_title`: reject titles shorter
than three characters, then reject the title when another non-deleted
article matches it case-insensitively (excluding, on update, the instance
being updated, whose primary key is `instancePk`). -/
def validate_title (value : String) (instancePk : Option Nat)
    (db : List ArticleRow) : Except TitleError String :=
  if value.length < 3 then Except.error TitleError.tooShort
  else
    let qs := db.filter (fun a =>
      lowerStr a.title = lowerStr value && !a.is_deleted &&
        (match instancePk with | some pk => a.pk ≠ pk | none => true))
    if qs.isEmpty then Except.ok value else Except.error TitleError.duplicate

/-! ### Cache invalidation (`apps/content/signals.py`) -/

/-- A raw key-value cache backend whose `delete` may fail (backend
unavailable). -/
structure CacheBackend where
  deleteRaw : String → Except String Unit

/-- Modelled from the spec: the cache client configuration
(`config/settings/base.py`, imported by both settings modules, is not part of
the sources) decides how backend errors surface to `django.core.cache.cache`
callers; per the specification, cache-backend unavailability is swallowed and
logged, never raised, so `delete` returns normally and reports a failure as a
logged message. -/
def cacheDelete (b : CacheBackend) (key : String) : Option String :=
  match b.deleteRaw key with
  | Except.ok _ => none
  | Except.error e => some e

/-- The keys deleted by `invalidate_article_cache`. -/
def articleCacheKeys (a : ArticleRow) : List String :=
  ["article:" ++ Nat.repr a.pk, "article:slug:" ++ a.slug, "articles:list:*"]

/-- `invalidate_article_cache` (post-save and post-delete receiver): delete
each key; failures are collected as log messages, not raised. -/
def invalidate_article_cache (b : CacheBackend) (a : ArticleRow) : List String :=
  (articleCacheKeys a).filterMap (cacheDelete b)

/-- The keys deleted by `invalidate_comment_cache`. -/
def commentCacheKeys (c : CommentRow) : List String :=
  ["comment:" ++ Nat.repr c.pk, "article:" ++ Nat.repr c.article ++ ":comments"]

/-- `invalidate_comment_cache` (post-save and post-delete receiver). -/
def invalidate_comment_cache (b : CacheBackend) (c : CommentRow) : List String :=
  (commentCacheKeys c).filterMap (cacheDelete b)

/-- An article write together with its post-save signal: persist the row,
then invalidate; the result carries the new table and the invalidation log.
There is no error outcome: the write itself cannot be failed by the cache. -/
def saveArticleWithSignals (b : CacheBackend) (db : List ArticleRow)
    (a : ArticleRow) (used : List String) : List ArticleRow × List String :=
  let row := articleSave a used
  (db ++ [row], invalidate_article_cache b row)

/-- A comment write together with its post-save signal. -/
def saveCommentWithSignals (b : CacheBackend) (db : List CommentRow)
    (c : CommentRow) : List CommentRow × List String :=
  (db ++ [c], invalidate_comment_cache b c)

/-! ### Decimal notation (`str(counter)` in the slug probe) -/

/-- Value of a decimal digit character. -/
def digitVal (c : Char) : Nat := c.toNat - 48

/-- Read a decimal string left to right, accumulating the value; inverse of
`Nat.toDigits 10`. -/
def parseDecAcc : Nat → List Char → Nat
  | acc, [] => acc
  | acc, c :: cs => parseDecAcc (acc * 10 + digitVal c) cs

/-! ### Concrete rows used by witnesses and counterexamples -/

/-- A sample stored article. -/
def sampleArticle : ArticleRow :=
  { pk := 1, title := "Hello World!", slug := "hello-world", content := "Some long content.",
    excerpt := "Some", author := 7, is_published := true, views_count := 3, tags := "",
    is_deleted := false, deleted_at := none, created_at := 0, updated_at := 5 }

/-- An unpublished, non-deleted article. -/
def draftArticle : ArticleRow :=
  { sampleArticle with pk := 2, slug := "draft", is_published := false }

/-- A non-deleted article titled `AB`, matching `ab` case-insensitively. -/
def dupArticle : ArticleRow :=
  { sampleArticle with pk := 3, slug := "ab", title := "AB" }

/-- Content of 201 characters, one more than the excerpt truncation point. -/
def longContent : String := (List.replicate 201 'a').asString

/-- An article saved with content longer than 200 characters and no
explicit excerpt. -/
def longArticle : ArticleRow :=
  { sampleArticle with pk := 4, slug := "long", content := longContent, excerpt := "" }

/-- An article instance about to be saved with neither slug nor excerpt and
a title that normalises to the empty slug. -/
def punctArticle : ArticleRow :=
  { sampleArticle with pk := 5, slug := "", title := "!!!", excerpt := "" }

/-- A sample soft-deletable entity state. -/
def sampleState : SoftDeleteState Unit :=
  { payload := (), is_deleted := false, deleted_at := none, created_at := 0, updated_at := 5 }

/-- A top-level sample comment on article 1. -/
def sampleComment : CommentRow :=
  { pk := 10, article := 1, author := 7, content := "First!", parent := none,
    is_deleted := false, deleted_at := none, created_at := 0, updated_at := 0 }

/-- A reply to `sampleComment`. -/
def sampleReply : CommentRow :=
  { sampleComment with pk := 11, parent := some 10 }

/-- A comment attached to article 2, used as a mismatched parent. -/
def otherArticleComment : CommentRow :=
  { sampleComment with pk := 12, article := 2 }

/-- A cache backend that always fails, standing for an unavailable cache. -/
def downBackend : CacheBackend :=
  { deleteRaw := fun k => Except.error ("cache backend unavailable: " ++ k) }

/-! ## Helper lemmas: decimal notation -/

theorem digitVal_digitChar : ∀ d : Nat, d < 10 → digitVal (Nat.digitChar d) = d := by
  decide

theorem toDigitsCore_succ (b fuel n : Nat) (ds : List Char) :
    Nat.toDigitsCore b (fuel + 1) n ds =
      if n / b = 0 then Nat.digitChar (n % b) :: ds
      else Nat.toDigitsCore b fuel (n / b) (Nat.digitChar (n % b) :: ds) := rfl

theorem parseDecAcc_cons (acc : Nat) (c : Char) (cs : List Char) :
    parseDecAcc acc (c :: cs) = parseDecAcc (acc * 10 + digitVal c) cs := rfl

theorem parseDecAcc_toDigitsCore :
    ∀ fuel n, n < fuel →
      ∃ e, ∀ acc ds, parseDecAcc acc (Nat.toDigitsCore 10 fuel n ds) =
        parseDecAcc (acc * 10 ^ e + n) ds := by
  intro fuel
  induction fuel with
  | zero => intro n h; exact absurd h (Nat.not_lt_zero n)
  | succ fuel ih =>
    intro n hn
    by_cases h0 : n / 10 = 0
    · refine ⟨1, fun acc ds => ?_⟩
      have hn10 : n < 10 := by omega
      rw [toDigitsCore_succ, if_pos h0, parseDecAcc_cons]
      rw [digitVal_digitChar _ (Nat.mod_lt n (by omega)), Nat.mod_eq_of_lt hn10, pow_one]
    · have hrec : n / 10 < fuel := by
        have h1 : n / 10 < n := Nat.div_lt_self (by omega) (by omega)
        omega
      obtain ⟨e, he⟩ := ih (n / 10) hrec
      refine ⟨e + 1, fun acc ds => ?_⟩
      rw [toDigitsCore_succ, if_neg h0]
      rw [he acc (Nat.digitChar (n % 10) :: ds)]
      rw [parseDecAcc_cons]
      rw [digitVal_digitChar _ (Nat.mod_lt n (by omega))]
      rw [pow_succ, ← mul_assoc]
      congr 1
      omega

theorem parseDecAcc_nil (acc : Nat) : parseDecAcc acc [] = acc := rfl

theorem parseDec_toDigits (n : Nat) : parseDecAcc 0 (Nat.toDigits 10 n) = n := by
  obtain ⟨e, he⟩ := parseDecAcc_toDigitsCore (n + 1) n (Nat.lt_succ_self n)
  have h := he 0 []
  unfold Nat.toDigits
  rw [h, parseDecAcc_nil, Nat.zero_mul, Nat.zero_add]

theorem toDigits_ten_injective {m n : Nat}
    (h : Nat.toDigits 10 m = Nat.toDigits 10 n) : m = n := by
  have hm := parseDec_toDigits m
  rw [h, parseDec_toDigits n] at hm
  exact hm.symm

theorem repr_data (n : Nat) : (Nat.repr n).data = Nat.toDigits 10 n := rfl

/-! ## Helper lemmas: slug candidates -/

theorem slugCandidate_injective (base : String) :
    Function.Injective (slugCandidate base) := by
  intro k m h
  unfold slugCandidate at h
  by_cases hk : k = 0 <;> by_cases hm : m = 0
  · omega
  · exfalso
    rw [if_pos hk, if_neg hm] at h
    have hlen := congrArg String.length h
    rw [String.length_append, String.length_append] at hlen
    have h1 : ("-" : String).length = 1 := rfl
    omega
  · exfalso
    rw [if_neg hk, if_pos hm] at h
    have hlen := congrArg String.length h
    rw [String.length_append, String.length_append] at hlen
    have h1 : ("-" : String).length = 1 := rfl
    omega
  · rw [if_neg hk, if_neg hm] at h
    have hd := congrArg String.data h
    simp only [String.data_append, List.append_assoc] at hd
    have h2 := List.append_cancel_left hd
    have h3 := List.append_cancel_left h2
    rw [repr_data, repr_data] at h3
    exact toDigits_ten_injective h3

theorem exists_free_slugCandidate (base : String) (used : List String) :
    ∃ k, k ≤ used.length ∧ slugCandidate base k ∉ used := by
  by_contra hcon
  push_neg at hcon
  have hsub : ∀ k ∈ Finset.range (used.length + 1), slugCandidate base k ∈ used.toFinset := by
    intro k hk
    rw [List.mem_toFinset]
    exact hcon k (Nat.lt_succ_iff.mp (Finset.mem_range.mp hk))
  have hcard := Finset.card_le_card_of_injOn (slugCandidate base) hsub
    (slugCandidate_injective base).injOn
  rw [Finset.card_range] at hcard
  have hlen := used.toFinset_card_le
  omega

theorem probeSlug_spec (base : String) (used : List String) :
    ∀ fuel c, (∃ j, j ≤ fuel ∧ slugCandidate base (c + j) ∉ used) →
      ∃ k, probeSlug base used fuel c = slugCandidate base k ∧ c ≤ k ∧
        slugCandidate base k ∉ used ∧
        ∀ i, c ≤ i → i < k → slugCandidate base i ∈ used := by
  intro fuel
  induction fuel with
  | zero =>
    intro c hex
    obtain ⟨j, hj, hfree⟩ := hex
    have hj0 : j = 0 := Nat.le_zero.mp hj
    subst hj0
    exact ⟨c, rfl, Nat.le_refl c, by simpa using hfree,
      fun i h1 h2 => absurd h1 (by omega)⟩
  | succ fuel ih =>
    intro c hex
    by_cases hc : slugCandidate base c ∈ used
    · have hex2 : ∃ j, j ≤ fuel ∧ slugCandidate base (c + 1 + j) ∉ used := by
        obtain ⟨j, hj, hfree⟩ := hex
        cases j with
        | zero => exact absurd hc (by simpa using hfree)
        | succ j2 =>
          refine ⟨j2, by omega, ?_⟩
          have harith : c + (j2 + 1) = c + 1 + j2 := by omega
          rw [harith] at hfree
          exact hfree
      obtain ⟨k, hk1, hk2, hk3, hk4⟩ := ih (c + 1) hex2
      refine ⟨k, ?_, by omega, hk3, ?_⟩
      · simpa [probeSlug, hc] using hk1
      · intro i h1 h2
        rcases Nat.eq_or_lt_of_le h1 with heq | hlt
        · rw [← heq]; exact hc
        · exact hk4 i hlt h2
    · exact ⟨c, by simp [probeSlug, hc], Nat.le_refl c, hc,
        fun i h1 h2 => absurd h1 (by omega)⟩

theorem generateUniqueSlug_spec (title : String) (used : List String) :
    generateUniqueSlug title used ∉ used ∧
    ∃ k, generateUniqueSlug title used = slugCandidate (slugify title) k ∧
      ∀ i, i < k → slugCandidate (slugify title) i ∈ used := by
  obtain ⟨k0, hk0, hfree⟩ := exists_free_slugCandidate (slugify title) used
  have hex : ∃ j, j ≤ used.length + 1 ∧ slugCandidate (slugify title) (0 + j) ∉ used :=
    ⟨k0, by omega, by simpa using hfree⟩
  obtain ⟨k, h1, _, h3, h4⟩ := probeSlug_spec (slugify title) used (used.length + 1) 0 hex
  refine ⟨?_, k, h1, fun i hi => h4 i (Nat.zero_le i) hi⟩
  show probeSlug (slugify title) used (used.length + 1) 0 ∉ used
  rw [h1]
  exact h3

theorem Nat_repr_inj {m n : Nat} (h : Nat.repr m = Nat.repr n) : m = n := by
  have hd := congrArg String.data h
  rw [repr_data, repr_data] at hd
  exact toDigits_ten_injective hd

/-! ## Claim C2 -/

/-- Claim C2, amended: the base slug is the Django `slugify` normalisation of
the title (lowercase; characters other than ASCII alphanumerics, underscore,
whitespace and hyphens removed; runs of whitespace and hyphens collapsed to a
single hyphen; hyphens and underscores stripped from the ends) rather than
the claim's "non-alphanumeric runs collapsed to single hyphens".  With that
base, the assigned slug is never one already in use among all existing
articles (soft-deleted included), it is the base itself whenever the base is
unused, and in general it is the candidate `base-k` for the smallest index
whose candidate is unused (every earlier candidate being taken). -/
theorem claim_C2 (title : String) (used : List String) :
    generateUniqueSlug title used ∉ used ∧
    (slugify title ∉ used → generateUniqueSlug title used = slugify title) ∧
    ∃ k, generateUniqueSlug title used = slugCandidate (slugify title) k ∧
      ∀ i, i < k → slugCandidate (slugify title) i ∈ used := by
  obtain ⟨h1, k, h2, h3⟩ := generateUniqueSlug_spec title used
  refine ⟨h1, ?_, k, h2, h3⟩
  intro hfree
  rcases Nat.eq_zero_or_pos k with hk | hk
  · rw [hk] at h2
    simpa [slugCandidate] using h2
  · exact absurd (by simpa [slugCandidate] using h3 0 hk) hfree

/-- Witness for C2: the allocator probed at a concrete title and slug
table. -/
theorem claim_C2_witness :
    generateUniqueSlug "Hello, World" ["hello-world"] ∉ ["hello-world"] ∧
    (slugify "Hello, World" ∉ ["hello-world"] →
      generateUniqueSlug "Hello, World" ["hello-world"] = slugify "Hello, World") ∧
    ∃ k, generateUniqueSlug "Hello, World" ["hello-world"] =
        slugCandidate (slugify "Hello, World") k ∧
      ∀ i, i < k → slugCandidate (slugify "Hello, World") i ∈ ["hello-world"] :=
  claim_C2 "Hello, World" ["hello-world"]

/-- Counterexample to C2 as stated: for the title `a_b` the spec's
normalisation gives `a-b`, which is unused in an empty table, yet the
allocator does not assign it (Django's `slugify` keeps the underscore, so the
assigned slug is `a_b`). -/
theorem claim_C2_counterexample :
    specNormalize "a_b" = "a-b" ∧ ("a-b" : String) ∉ ([] : List String) ∧
    generateUniqueSlug "a_b" [] ≠ specNormalize "a_b" := by
  refine ⟨by decide, by decide, by decide⟩

/-! ## Claim C3 -/

/-- Claim C3: the published view holds exactly the rows with
`is_deleted = false` and `is_published = true`, the active view exactly the
rows with `is_deleted = false`; an active unpublished article is absent from
the former and present in the latter. -/
theorem claim_C3 (db : List ArticleRow) (a : ArticleRow) :
    (a ∈ publishedView db ↔ a ∈ db ∧ a.is_deleted = false ∧ a.is_published = true) ∧
    (a ∈ activeView db ↔ a ∈ db ∧ a.is_deleted = false) ∧
    (a ∈ db → a.is_published = false → a.is_deleted = false →
      a ∉ publishedView db ∧ a ∈ activeView db) := by
  have hp : a ∈ publishedView db ↔ a ∈ db ∧ a.is_deleted = false ∧ a.is_published = true := by
    simp only [publishedView, List.mem_filter, Bool.and_eq_true, Bool.not_eq_true']
    tauto
  have ha : a ∈ activeView db ↔ a ∈ db ∧ a.is_deleted = false := by
    simp only [activeView, List.mem_filter, Bool.not_eq_true']
  refine ⟨hp, ha, fun hmem hpub hdel => ⟨?_, ha.mpr ⟨hmem, hdel⟩⟩⟩
  intro hin
  have := (hp.mp hin).2.2
  rw [hpub] at this
  exact Bool.false_ne_true this

/-- Witness for C3: a concrete unpublished active article is filtered out of
the published view and kept in the active view. -/
theorem claim_C3_witness :
    draftArticle ∉ publishedView [draftArticle] ∧ draftArticle ∈ activeView [draftArticle] :=
  (claim_C3 [draftArticle] draftArticle).2.2 (by simp) (by decide) (by decide)

/-! ## Claim C4 -/

/-- Claim C4, amended: `soft_delete` followed by `restore` leaves
`is_deleted = false` and `deleted_at = none` and every other field unchanged
from before the pair — including `updated_at`, which does not advance,
because both operations save with `update_fields=['is_deleted', 'deleted_at']`
and Django refreshes the `auto_now` timestamp only for fields listed there. -/
theorem claim_C4 {α : Type} (s : SoftDeleteState α) (now1 now2 : Nat) :
    (restore now2 (soft_delete now1 s)).is_deleted = false ∧
    (restore now2 (soft_delete now1 s)).deleted_at = none ∧
    (restore now2 (soft_delete now1 s)).payload = s.payload ∧
    (restore now2 (soft_delete now1 s)).created_at = s.created_at ∧
    (restore now2 (soft_delete now1 s)).updated_at = s.updated_at := by
  have hmem : ("updated_at" ∈ ["is_deleted", "deleted_at"]) = False := by
    simp
  simp [restore, soft_delete, saveUpdateFields, hmem]

/-- Counterexample to C4 as stated: on a concrete entity the pair leaves
`updated_at` exactly where it was, so `updated_at` does not advance. -/
theorem claim_C4_counterexample :
    (restore 11 (soft_delete 10 sampleState)).updated_at = sampleState.updated_at ∧
    ¬ sampleState.updated_at < (restore 11 (soft_delete 10 sampleState)).updated_at := by
  refine ⟨by decide, by decide⟩

/-! ## Claim C5 -/

/-- Claim C5, amended: when an article is saved with non-empty content and no
explicit excerpt, the stored excerpt is the content itself when it has at
most 200 characters, and otherwise the first 200 characters followed by
`...` — not plain `content[:200]`. -/
theorem claim_C5 (a : ArticleRow) (used : List String)
    (h1 : a.excerpt = "") (h2 : a.content ≠ "") :
    (articleSave a used).excerpt =
      if a.content.length > 200 then (a.content.data.take 200).asString ++ "..."
      else a.content := by
  unfold articleSave autoExcerpt
  by_cases hs : a.slug = "" <;> simp [hs, h1, h2]

/-- Witness for C5 on a concrete long-content article. -/
theorem claim_C5_witness :
    (articleSave longArticle []).excerpt =
      if longArticle.content.length > 200 then
        (longArticle.content.data.take 200).asString ++ "..."
      else longArticle.content :=
  claim_C5 longArticle [] (by decide) (by decide)

set_option maxRecDepth 8000 in
/-- Counterexample to C5 as stated: with 201 characters of content the stored
excerpt is the 200-character prefix plus `...`, which differs from
`content[:200]`. -/
theorem claim_C5_counterexample :
    (articleSave longArticle []).excerpt ≠ (longContent.data.take 200).asString := by
  intro h
  have hlen := congrArg String.length h
  revert hlen
  decide

/-! ## Claim C1 -/

theorem increment_views_eq (a : ArticleRow) (db : List ArticleRow) :
    increment_views a db =
      (findRow (atomicIncrementViews a.pk db) a.pk).map
        (fun r => ({ a with views_count := r.views_count },
          atomicIncrementViews a.pk db)) := rfl

theorem findRow_atomicIncrement (q pk : Nat) (db : List ArticleRow) :
    findRow (atomicIncrementViews q db) pk =
      (findRow db pk).map
        (fun a => if q = pk then { a with views_count := a.views_count + 1 } else a) := by
  induction db with
  | nil => rfl
  | cons b db ih =>
    unfold findRow atomicIncrementViews
    unfold findRow atomicIncrementViews at ih
    simp only [List.map_cons]
    by_cases hb : b.pk = pk
    · by_cases hq : b.pk = q
      · rw [if_pos hq]
        rw [List.find?_cons_of_pos _ (by simp [hb]), List.find?_cons_of_pos _ (by simp [hb])]
        simp [hb ▸ hq.symm]
      · rw [if_neg hq]
        rw [List.find?_cons_of_pos _ (by simp [hb]), List.find?_cons_of_pos _ (by simp [hb])]
        have : ¬ q = pk := fun h => hq (h ▸ hb)
        simp [this]
    · by_cases hq : b.pk = q
      · rw [if_pos hq]
        rw [List.find?_cons_of_neg _ (by simp [hb]), List.find?_cons_of_neg _ (by simp [hb])]
        exact ih
      · rw [if_neg hq]
        rw [List.find?_cons_of_neg _ (by simp [hb]), List.find?_cons_of_neg _ (by simp [hb])]
        exact ih

theorem storedViews_atomicIncrement (q pk : Nat) (db : List ArticleRow) :
    storedViews (atomicIncrementViews q db) pk =
      (storedViews db pk).map (fun v => if q = pk then v + 1 else v) := by
  unfold storedViews
  rw [findRow_atomicIncrement]
  cases findRow db pk with
  | none => rfl
  | some a => by_cases hq : q = pk <;> simp [hq]

theorem views_after_runIncrements (sched : List Nat) :
    ∀ db pk, storedViews (runIncrements db sched) pk =
      (storedViews db pk).map (fun v => v + sched.count pk) := by
  induction sched with
  | nil =>
    intro db pk
    cases h : storedViews db pk <;> simp [runIncrements, h]
  | cons q sched ih =>
    intro db pk
    have hstep : runIncrements db (q :: sched) = runIncrements (atomicIncrementViews q db) sched := rfl
    rw [hstep, ih, storedViews_atomicIncrement]
    cases h : storedViews db pk with
    | none => rfl
    | some v =>
      by_cases hq : q = pk
      · simp [hq, List.count_cons]
        omega
      · have : ¬ (q == pk) = true := by simp [hq]
        simp [hq, List.count_cons, this]

/-- Claim C1: over the atomic-interleaving model of the store, N concurrent
invocations of `increment_views` on the same article add exactly N to the
stored `views_count` (each invocation is one in-place increment executed by
the storage layer, so interleavings are sequences of atomic increments and no
update is lost), and a single call returns the caller's copy refreshed to the
stored post-increment value. -/
theorem claim_C1 (db : List ArticleRow) (a : ArticleRow) (N : Nat)
    (h : findRow db a.pk = some a) :
    storedViews (runIncrements db (List.replicate N a.pk)) a.pk =
      some (a.views_count + N) ∧
    ∀ res db2, increment_views a db = some (res, db2) →
      res.views_count = a.views_count + 1 ∧
      storedViews db2 a.pk = some res.views_count := by
  constructor
  · rw [views_after_runIncrements]
    unfold storedViews
    rw [h]
    simp [List.count_replicate]
  · intro res db2 hcall
    rw [increment_views_eq, findRow_atomicIncrement, h] at hcall
    simp only [if_pos rfl, Option.map_some] at hcall
    have h1 : res = { a with views_count := a.views_count + 1 } := by
      have := congrArg Prod.fst (Option.some.inj hcall)
      simpa using this.symm
    have h2 : db2 = atomicIncrementViews a.pk db := by
      have := congrArg Prod.snd (Option.some.inj hcall)
      simpa using this.symm
    subst h1 h2
    refine ⟨rfl, ?_⟩
    rw [storedViews_atomicIncrement]
    unfold storedViews
    rw [h]
    simp

/-- Witness for C1: three concurrent increments on a stored article. -/
theorem claim_C1_witness :
    storedViews (runIncrements [sampleArticle] (List.replicate 3 sampleArticle.pk))
        sampleArticle.pk = some (sampleArticle.views_count + 3) ∧
    ∀ res db2, increment_views sampleArticle [sampleArticle] = some (res, db2) →
      res.views_count = sampleArticle.views_count + 1 ∧
      storedViews db2 sampleArticle.pk = some res.views_count :=
  claim_C1 [sampleArticle] sampleArticle 3 (by decide)

/-! ## Claim C6 -/

/-- Claim C6: `get_replies` returns the empty sequence on any comment that is
itself a reply (even if it has children), and on a top-level comment at most
five children, all non-deleted. -/
theorem claim_C6 (c : CommentRow) (db : List CommentRow) :
    (c.parent ≠ none → get_replies c db = []) ∧
    (get_replies c db).length ≤ 5 ∧
    ∀ r ∈ get_replies c db, r.is_deleted = false ∧ r.parent = some c.pk := by
  refine ⟨fun hp => ?_, ?_, fun r hr => ?_⟩
  · unfold get_replies
    rw [if_pos (Option.isSome_iff_ne_none.mpr hp)]
  · unfold get_replies
    by_cases hp : c.parent.isSome
    · rw [if_pos hp]
      simp
    · rw [if_neg hp]
      exact List.length_take_le 5 _
  · unfold get_replies at hr
    by_cases hp : c.parent.isSome
    · rw [if_pos hp] at hr
      exact absurd hr (List.not_mem_nil r)
    · rw [if_neg hp] at hr
      have hmem := List.mem_of_mem_take hr
      have hpred := (List.mem_filter.mp hmem).2
      simp only [Bool.and_eq_true, Bool.not_eq_true', decide_eq_true_eq] at hpred
      exact ⟨hpred.2, hpred.1⟩

/-- Witness for C6: a reply with a child still yields no nested replies. -/
theorem claim_C6_witness :
    get_replies sampleReply [{ sampleComment with pk := 13, parent := some 11 }] = [] :=
  (claim_C6 sampleReply [{ sampleComment with pk := 13, parent := some 11 }]).1 (by decide)

/-! ## Claim C7 -/

/-- Claim C7: a comment write whose parent belongs to a different article
fails validation with the "parent must belong to the same article" error and
no row is written (the error result carries no table); with a matching parent
or no parent the check passes and the row is appended. -/
theorem claim_C7 (db : List CommentRow) (parent : Option CommentRow)
    (articleId : Nat) (row : CommentRow) :
    (∀ p, parent = some p → p.article ≠ articleId →
      createComment db parent articleId row =
        Except.error "Parent comment must belong to the same article.") ∧
    ((∀ p, parent = some p → p.article = articleId) →
      createComment db parent articleId row = Except.ok (db ++ [row])) := by
  constructor
  · intro p hp hne
    subst hp
    have hcond : Nat.repr p.article ≠ Nat.repr articleId :=
      fun hrepr => hne (Nat_repr_inj hrepr)
    simp [createComment, validate_parent, hcond]
  · intro hall
    cases parent with
    | none => rfl
    | some p =>
      have heq := hall p rfl
      simp [createComment, validate_parent, heq]

/-- Witness for C7: a mismatched parent is rejected with the exact error and
a matching parent is accepted. -/
theorem claim_C7_witness :
    createComment [] (some otherArticleComment) 1 sampleComment =
      Except.error "Parent comment must belong to the same article." ∧
    createComment [] (some sampleComment) 1 sampleReply =
      Except.ok ([] ++ [sampleReply]) := by
  refine ⟨(claim_C7 [] (some otherArticleComment) 1 sampleComment).1
      otherArticleComment rfl (by decide),
    (claim_C7 [] (some sampleComment) 1 sampleReply).2 ?_⟩
  intro p hp
  rw [Option.some.injEq] at hp
  subst hp
  decide

/-! ## Claim C8 -/

/-- Claim C8 (cache client modelled from the spec, see `cacheDelete`): for
every backend state, including an unavailable one, a create/update/soft-delete
write of an article or comment returns the written table; invalidation
failures are collected as log entries rather than raised, and with the
always-failing backend every key's failure is logged while the write still
succeeds. -/
theorem claim_C8 (b : CacheBackend) (db : List ArticleRow) (a : ArticleRow)
    (used : List String) (dbc : List CommentRow) (c : CommentRow) :
    (saveArticleWithSignals b db a used).1 = db ++ [articleSave a used] ∧
    (saveCommentWithSignals b dbc c).1 = dbc ++ [c] ∧
    (saveArticleWithSignals downBackend db a used).1 = db ++ [articleSave a used] ∧
    (saveArticleWithSignals downBackend db a used).2.length = 3 ∧
    (saveCommentWithSignals downBackend dbc c).2.length = 2 :=
  ⟨rfl, rfl, rfl, rfl, rfl⟩

/-! ## Claim C10 -/

/-- Claim C10, amended: for a title passing the three-character minimum
(shorter titles are rejected with the length error before the duplicate check
runs), `validate_title` raises the duplicate error exactly when some other
non-deleted article matches the title case-insensitively — excluding, on
update, the instance being updated — and in particular a title matching only
soft-deleted articles is accepted. -/
theorem claim_C10 (value : String) (instancePk : Option Nat) (db : List ArticleRow)
    (hlen : ¬ value.length < 3) :
    (validate_title value instancePk db = Except.error TitleError.duplicate ↔
      ∃ a, a ∈ db ∧ lowerStr a.title = lowerStr value ∧ a.is_deleted = false ∧
        ∀ pk, instancePk = some pk → a.pk ≠ pk) ∧
    ((∀ a, a ∈ db → lowerStr a.title = lowerStr value → a.is_deleted = true) →
      validate_title value instancePk db = Except.ok value) := by
  have hpred : ∀ a : ArticleRow,
      (lowerStr a.title = lowerStr value && !a.is_deleted &&
        (match instancePk with | some pk => a.pk ≠ pk | none => true)) = true ↔
      (lowerStr a.title = lowerStr value ∧ a.is_deleted = false ∧
        ∀ pk, instancePk = some pk → a.pk ≠ pk) := by
    intro a
    cases instancePk with
    | none =>
      simp only [Bool.and_eq_true, Bool.not_eq_true', decide_eq_true_eq, and_true]
      constructor
      · rintro ⟨h1, h2⟩
        exact ⟨h1, h2, fun pk h => nomatch h⟩
      · rintro ⟨h1, h2, _⟩
        exact ⟨h1, h2⟩
    | some pk0 =>
      simp only [Bool.and_eq_true, Bool.not_eq_true', decide_eq_true_eq]
      constructor
      · rintro ⟨⟨h1, h2⟩, h3⟩
        exact ⟨h1, h2, fun pk h => by cases h; exact h3⟩
      · rintro ⟨h1, h2, h3⟩
        exact ⟨⟨h1, h2⟩, h3 pk0 rfl⟩
  unfold validate_title
  rw [if_neg hlen]
  constructor
  · by_cases hemp : (db.filter fun a =>
        lowerStr a.title = lowerStr value && !a.is_deleted &&
          (match instancePk with | some pk => a.pk ≠ pk | none => true)).isEmpty
    · rw [if_pos hemp]
      have hnil := List.isEmpty_iff.mp hemp
      rw [List.filter_eq_nil_iff] at hnil
      constructor
      · intro h
        exact absurd h (by simp)
      · rintro ⟨a, ha, h1, h2, h3⟩
        exact absurd ((hpred a).mpr ⟨h1, h2, h3⟩) (hnil a ha)
    · rw [if_neg hemp]
      have hne : (db.filter fun a =>
          lowerStr a.title = lowerStr value && !a.is_deleted &&
            (match instancePk with | some pk => a.pk ≠ pk | none => true)) ≠ [] := by
        intro h
        exact hemp (List.isEmpty_iff.mpr h)
      obtain ⟨a, ha⟩ := List.exists_mem_of_ne_nil _ hne
      have hmem := List.mem_filter.mp ha
      exact ⟨fun _ => ⟨a, hmem.1, (hpred a).mp hmem.2⟩, fun _ => rfl⟩
  · intro hall
    rw [if_pos]
    rw [List.isEmpty_iff, List.filter_eq_nil_iff]
    intro a ha hp
    obtain ⟨h1, h2, _⟩ := (hpred a).mp hp
    rw [hall a ha h1] at h2
    exact absurd h2 (by decide)

/-- Witness for C10: a case-insensitive clash with an active article is
reported as a duplicate. -/
theorem claim_C10_witness :
    validate_title "abc" none [{ dupArticle with title := "ABC" }] =
      Except.error TitleError.duplicate :=
  (claim_C10 "abc" none [{ dupArticle with title := "ABC" }] (by decide)).1.mpr
    ⟨{ dupArticle with title := "ABC" }, by simp, by decide, by decide,
      fun pk h => nomatch h⟩

/-- Counterexample to C10 as stated: for the two-character title `ab` a
case-insensitive active duplicate exists, yet the error raised is the length
error, not the duplicate error, so the "if and only if" fails. -/
theorem claim_C10_counterexample :
    validate_title "ab" none [dupArticle] ≠ Except.error TitleError.duplicate ∧
    validate_title "ab" none [dupArticle] = Except.error TitleError.tooShort ∧
    dupArticle ∈ [dupArticle] ∧ lowerStr dupArticle.title = lowerStr "ab" ∧
    dupArticle.is_deleted = false := by
  have hshort : validate_title "ab" none [dupArticle] = Except.error TitleError.tooShort := rfl
  refine ⟨?_, hshort, by decide, by decide, by decide⟩
  rw [hshort]
  intro h
  injection h with h2
  exact absurd h2 (by decide)

/-! ## Claim C9 -/

theorem toNat_ofNat_small : ∀ m : Nat, m < 128 → (Char.ofNat m).toNat = m := by
  decide

theorem toLower_toNat (c : Char) :
    (Char.toLower c).toNat =
      if 65 ≤ c.toNat ∧ c.toNat ≤ 90 then c.toNat + 32 else c.toNat := by
  show (if c.toNat ≥ 65 ∧ c.toNat ≤ 90 then Char.ofNat (c.toNat + 32) else c).toNat = _
  by_cases h : 65 ≤ c.toNat ∧ c.toNat ≤ 90
  · rw [if_pos h, if_pos h]
    exact toNat_ofNat_small _ (by omega)
  · rw [if_neg h, if_neg h]

theorem isAsciiAlnum_iff (c : Char) :
    isAsciiAlnum c = true ↔
      (65 ≤ c.toNat ∧ c.toNat ≤ 90) ∨ (97 ≤ c.toNat ∧ c.toNat ≤ 122) ∨
        (48 ≤ c.toNat ∧ c.toNat ≤ 57) := by
  simp [isAsciiAlnum]
  tauto

theorem isAsciiAlnum_toLower (c : Char) (h : isAsciiAlnum c = true) :
    isAsciiAlnum (Char.toLower c) = true := by
  rw [isAsciiAlnum_iff] at h
  rw [isAsciiAlnum_iff, toLower_toNat]
  by_cases hc : 65 ≤ c.toNat ∧ c.toNat ≤ 90
  · rw [if_pos hc]
    omega
  · rw [if_neg hc]
    omega

theorem mem_collapseRunsBy (sep : Char → Bool) (d : Char) (hd : sep d = false) :
    ∀ (l : List Char) (b : Bool), d ∈ l → d ∈ collapseRunsBy sep b l := by
  intro l
  induction l with
  | nil => intro b h; exact absurd h (List.not_mem_nil d)
  | cons c cs ih =>
    intro b h
    rcases List.mem_cons.mp h with heq | hmem
    · subst heq
      rw [show collapseRunsBy sep b (d :: cs) =
          d :: collapseRunsBy sep false cs from by simp [collapseRunsBy, hd]]
      exact List.mem_cons_self d _
    · by_cases hc : sep c = true
      · cases b with
        | true =>
          rw [show collapseRunsBy sep true (c :: cs) =
              collapseRunsBy sep true cs from by simp [collapseRunsBy, hc]]
          exact ih true hmem
        | false =>
          rw [show collapseRunsBy sep false (c :: cs) =
              '-' :: collapseRunsBy sep true cs from by simp [collapseRunsBy, hc]]
          exact List.mem_cons_of_mem _ (ih true hmem)
      · rw [show collapseRunsBy sep b (c :: cs) =
            c :: collapseRunsBy sep false cs from by
          simp [collapseRunsBy, Bool.eq_false_iff.mpr hc]]
        exact List.mem_cons_of_mem _ (ih false hmem)

theorem mem_dropWhile_of_not (p : Char → Bool) (d : Char) (hd : p d = false) :
    ∀ l : List Char, d ∈ l → d ∈ l.dropWhile p := by
  intro l
  induction l with
  | nil => intro h; exact absurd h (List.not_mem_nil d)
  | cons c cs ih =>
    intro h
    by_cases hc : p c = true
    · rw [List.dropWhile_cons_of_pos hc]
      rcases List.mem_cons.mp h with heq | hmem
      · subst heq
        rw [hd] at hc
        exact absurd hc (by decide)
      · exact ih hmem
    · rw [List.dropWhile_cons_of_neg hc]
      exact h

theorem mem_stripEndsBy (p : Char → Bool) (d : Char) (hd : p d = false)
    (l : List Char) (h : d ∈ l) : d ∈ stripEndsBy p l := by
  unfold stripEndsBy
  rw [List.mem_reverse]
  exact mem_dropWhile_of_not p d hd _
    (List.mem_reverse.mpr (mem_dropWhile_of_not p d hd l h))

theorem slugifyChars_ne_nil (cs : List Char) (c : Char) (hc : c ∈ cs)
    (halnum : isAsciiAlnum c = true) : slugifyChars cs ≠ [] := by
  have hrange := (isAsciiAlnum_iff c).mp halnum
  have hascii : c ∈ cs.filter (fun c => c.toNat < 128) :=
    List.mem_filter.mpr ⟨hc, by simp; omega⟩
  have hlow : Char.toLower c ∈ (cs.filter (fun c => c.toNat < 128)).map Char.toLower :=
    List.mem_map_of_mem Char.toLower hascii
  have hdal : isAsciiAlnum (Char.toLower c) = true := isAsciiAlnum_toLower c halnum
  have hdrange := (isAsciiAlnum_iff (Char.toLower c)).mp hdal
  have hkept : Char.toLower c ∈
      ((cs.filter (fun c => c.toNat < 128)).map Char.toLower).filter
        (fun c => isPyWord c || isPySpace c || c.toNat = 45) := by
    refine List.mem_filter.mpr ⟨hlow, ?_⟩
    simp [isPyWord, hdal]
  have hsep : isSlugSep (Char.toLower c) = false := by
    simp only [isSlugSep, isPySpace, Bool.or_eq_false_iff, decide_eq_false_iff_not]
    omega
  have hstrip : isStripChar (Char.toLower c) = false := by
    simp only [isStripChar, Bool.or_eq_false_iff, decide_eq_false_iff_not]
    omega
  have hfinal : Char.toLower c ∈ slugifyChars cs := by
    show Char.toLower c ∈ stripEndsBy isStripChar (collapseRunsBy isSlugSep false
      (((cs.filter (fun c => c.toNat < 128)).map Char.toLower).filter
        (fun c => isPyWord c || isPySpace c || c.toNat = 45)))
    exact mem_stripEndsBy isStripChar _ hstrip _
      (mem_collapseRunsBy isSlugSep _ hsep _ false hkept)
  exact List.ne_nil_of_mem hfinal

theorem slugify_ne_empty (s : String) (c : Char) (hc : c ∈ s.data)
    (halnum : isAsciiAlnum c = true) : slugify s ≠ "" := by
  intro h
  have hd : slugifyChars s.data = [] := congrArg String.data h
  exact slugifyChars_ne_nil s.data c hc halnum hd

theorem slugCandidate_ne_empty (base : String) (hbase : base ≠ "") (k : Nat) :
    slugCandidate base k ≠ "" := by
  unfold slugCandidate
  by_cases hk : k = 0
  · rw [if_pos hk]
    exact hbase
  · rw [if_neg hk]
    intro h
    have hlen := congrArg String.length h
    rw [String.length_append, String.length_append] at hlen
    have h1 : ("-" : String).length = 1 := rfl
    have h2 : ("" : String).length = 0 := rfl
    omega

theorem generateUniqueSlug_ne_empty (title : String) (used : List String)
    (hbase : slugify title ≠ "") : generateUniqueSlug title used ≠ "" := by
  obtain ⟨_, k, h2, _⟩ := generateUniqueSlug_spec title used
  rw [h2]
  exact slugCandidate_ne_empty _ hbase k

theorem generateUniqueSlug_of_empty (title : String) (used : List String)
    (hbase : slugify title = "") (hfree : "" ∉ used) :
    generateUniqueSlug title used = "" := by
  obtain ⟨h1, k, h2, h3⟩ := generateUniqueSlug_spec title used
  rcases Nat.eq_zero_or_pos k with hk | hk
  · rw [hk] at h2
    rw [h2]
    simp [slugCandidate, hbase]
  · have hmem := h3 0 hk
    rw [show slugCandidate (slugify title) 0 = slugify title from by
      simp [slugCandidate]] at hmem
    rw [hbase] at hmem
    exact absurd hmem hfree

/-- Claim C9, amended: slug allocation never fails.  For a title containing
at least one ASCII alphanumeric character the generated slug is non-empty,
but for a title whose normalisation is empty the save is not rejected: it
proceeds and silently assigns the empty slug (when unused) instead of giving
the caller a chance to supply a fallback. -/
theorem claim_C9 (a : ArticleRow) (used : List String) :
    ((∃ c ∈ a.title.data, isAsciiAlnum c = true) →
      generateUniqueSlug a.title used ≠ "") ∧
    (a.slug = "" → slugify a.title = "" → "" ∉ used →
      (articleSave a used).slug = "") := by
  constructor
  · rintro ⟨c, hc, halnum⟩
    exact generateUniqueSlug_ne_empty _ _ (slugify_ne_empty _ c hc halnum)
  · intro hslug hbase hfree
    have hgen := generateUniqueSlug_of_empty a.title used hbase hfree
    have hsave : (articleSave a used).slug =
        (if a.slug = "" then { a with slug := generateUniqueSlug a.title used }
          else a).slug := by
      unfold articleSave
      set w := if a.slug = "" then { a with slug := generateUniqueSlug a.title used }
        else a with hw
      by_cases hcond : w.excerpt = "" ∧ w.content ≠ "" <;> simp [hcond]
    rw [hsave, if_pos hslug]
    exact hgen

/-- Witness for C9: a real title yields a non-empty slug, while the
all-punctuation title is saved with the empty slug. -/
theorem claim_C9_witness :
    generateUniqueSlug sampleArticle.title [] ≠ "" ∧
    (articleSave punctArticle []).slug = "" :=
  ⟨(claim_C9 sampleArticle []).1 (by decide),
    (claim_C9 punctArticle []).2 (by decide) (by decide) (by decide)⟩

/-- Counterexample to C9 as stated: the title `!!!` normalises to the empty
string, yet the save is not rejected — it completes and stores the article
with the empty slug (and the auto-derived excerpt). -/
theorem claim_C9_counterexample :
    slugify punctArticle.title = "" ∧
    articleSave punctArticle [] =
      { punctArticle with slug := "", excerpt := punctArticle.content } := by
  refine ⟨by decide, by decide⟩
